import Mathlib

set_option linter.unusedVariables false

/-!
Verification of the frame-submission / packet-drain pipeline of the
simple AV1 encoder driver (`src/simpleEncoder/main.cpp`).

The file shallowly embeds the driver's code: the keyframe-flag computation
of the main loop, the raw-frame reader `aom_img_read`, the packet-drain
body `encode_frame`, the flush loop, and the setup/validation sequence of
`main`.  The external libaom session is an opaque collaborator; its
observable outputs (per-submission packet batches, the init result) are
parameters of the embedding.
-/

namespace AomEnc

/-! ## Keyframe flags (main.cpp lines 366-368)

`int flags = 0;
 if (keyframe_interval > 0 && frame_count % keyframe_interval == 0)
   flags |= AOM_EFLAG_FORCE_KF;`

`frame_count` is a nonnegative `int` counter, `keyframe_interval` an `int`
parsed from the command line (negative values rejected at setup).  For a
nonnegative left operand, C's `%` agrees with `Int.emod`. -/

/-- `AOM_EFLAG_FORCE_KF` from `aomcx.h`: bit 0 of the submission flags. -/
def AOM_EFLAG_FORCE_KF : Nat := 1

/-- The `flags` value the main loop passes to `encode_frame` for the frame
with index `frame_count`, given the configured `keyframe_interval`. -/
def frame_flags (frame_count : Nat) (keyframe_interval : Int) : Nat :=
  if 0 < keyframe_interval ∧ (frame_count : Int) % keyframe_interval = 0 then
    0 ||| AOM_EFLAG_FORCE_KF
  else 0

/-- A keyframe is forced on this submission iff the force-keyframe bit is
set in the flags. -/
def should_force_keyframe (frame_index : Nat) (interval : Int) : Bool :=
  frame_flags frame_index interval &&& AOM_EFLAG_FORCE_KF ≠ 0

/-! ## Frame source: `aom_img_read` (main.cpp lines 206-224)

The image has format `AOM_IMG_FMT_I420` (three planes, chroma subsampled
by 2 in both directions, not high bit depth), so the row byte count of
plane 0 is the frame width and of planes 1 and 2 is `(width+1)/2`
(libaom's `aom_img_plane_width` with `x_chroma_shift = 1`), and similarly
for the plane heights.  The input stream is modelled as the list of bytes
remaining in the file; `fread` of `n` bytes hands over `min n |s|` bytes. -/

/-- Row bytes of plane `p` of an I420 image of display width `w`
(`aom_img_plane_width`, non-high-bit-depth). -/
def planeWidth (w : Nat) (p : Nat) : Nat :=
  if p = 0 then w else (w + 1) / 2

/-- Rows of plane `p` of an I420 image of display height `h`
(`aom_img_plane_height`). -/
def planeHeight (h : Nat) (p : Nat) : Nat :=
  if p = 0 then h else (h + 1) / 2

/-- `fread(buf, 1, n, file)`: returns the bytes obtained and the rest of
the stream.  The call is short exactly when fewer than `n` bytes remain. -/
def fread (n : Nat) (s : List Nat) : List Nat × List Nat :=
  (s.take n, s.drop n)

/-- The inner row loop of `aom_img_read` for one plane: read `h` rows of
`w` bytes each; `none` as soon as one `fread` is short (the C code
`return 0`s immediately). -/
def readPlaneRows (w : Nat) : Nat → List Nat → Option (List (List Nat) × List Nat)
  | 0, s => some ([], s)
  | h + 1, s =>
    let r := fread w s
    if r.1.length ≠ w then none
    else
      match readPlaneRows w h r.2 with
      | none => none
      | some (rows, s') => some (r.1 :: rows, s')

/-- `aom_img_read(img, file)` on an I420 image of geometry `w × h`: the
plane loop `for (plane = 0; plane < 3; ++plane)` unrolled.
`some (planes, rest)` models `return 1` with the buffer fully filled,
`none` models `return 0` after a short read. -/
def aom_img_read (w h : Nat) (s : List Nat) : Option (List (List (List Nat)) × List Nat) :=
  match readPlaneRows (planeWidth w 0) (planeHeight h 0) s with
  | none => none
  | some (p0, s1) =>
    match readPlaneRows (planeWidth w 1) (planeHeight h 1) s1 with
    | none => none
    | some (p1, s2) =>
      match readPlaneRows (planeWidth w 2) (planeHeight h 2) s2 with
      | none => none
      | some (p2, s3) => some ([p0, p1, p2], s3)

/-- Total bytes one frame occupies in the input stream. -/
def frameBytes (w h : Nat) : Nat :=
  planeWidth w 0 * planeHeight h 0 + planeWidth w 1 * planeHeight h 1 +
    planeWidth w 2 * planeHeight h 2

/-! ## Packets and the output file

`aom_codec_cx_pkt_t` is a tagged union: kind `AOM_CODEC_CX_FRAME_PKT`
carries the compressed frame payload (`buf`/`sz`) and its flags
(`AOM_FRAME_IS_KEY`); the other kinds (stats, PSNR, …) are informational.
The output file is a byte sink that may stop accepting bytes (disk full):
`cap = none` models a healthy stream, `cap = some c` a stream that will
accept only `c` more bytes, after which `fwrite` reports a short count. -/

/-- Packet kinds of `aom_codec_cx_pkt_t`. -/
inductive PacketKind where
  | cxFrame
  | stats
  | fpmbStats
  | psnr
  | custom
  deriving DecidableEq, Repr

/-- One packet drained from the session by `aom_codec_get_cx_data`. -/
structure Packet where
  kind : PacketKind
  payload : List Nat
  isKey : Bool
  deriving DecidableEq, Repr

/-- The output stream: bytes written so far and remaining acceptance
capacity (`none` = unbounded). -/
structure OutFile where
  written : List Nat
  cap : Option Nat
  deriving DecidableEq, Repr

/-- `fwrite(buf, 1, n, outfile)`: number of bytes actually written and the
updated stream. -/
def fwrite (bytes : List Nat) (f : OutFile) : Nat × OutFile :=
  match f.cap with
  | none => (bytes.length, ⟨f.written ++ bytes, none⟩)
  | some c =>
    let n := min bytes.length c
    (n, ⟨f.written ++ bytes.take n, some (c - n)⟩)

/-- Outcome of a code path that may call `die_codec` (which prints its
message plus the session's error string and `exit(EXIT_FAILURE)`s the
process).  The output stream as of the exit is carried on both branches. -/
inductive EncResult where
  | ok (got : Bool) (f : OutFile)
  | died (msg : String) (f : OutFile)
  deriving DecidableEq, Repr

/-! ## `encode_frame` (main.cpp lines 227-251)

`aom_codec_encode` submits the frame (or NULL during flush); on error the
driver dies.  The `while ((pkt = aom_codec_get_cx_data(...)))` loop drains
the packets the session yields for this call — modelled as the list
`pkts` — sets `got_pkts = 1` for every drained packet of any kind, and
for `AOM_CODEC_CX_FRAME_PKT` packets `fwrite`s the payload, dying on a
short write.  `frame_index` and `flags` are forwarded to the opaque
session and do not influence this function's own control flow. -/

/-- The drain loop of `encode_frame` over the drained packets, with the
`got_pkts` accumulator. -/
def drainPackets : List Packet → Bool → OutFile → EncResult
  | [], got, f => .ok got f
  | p :: ps, _, f =>
    if p.kind = PacketKind.cxFrame then
      let r := fwrite p.payload f
      if r.1 ≠ p.payload.length then .died "Failed to write compressed frame" r.2
      else drainPackets ps true r.2
    else drainPackets ps true f

/-- `encode_frame(codec, img, frame_index, flags, outfile)`.
`encErr` is the result of `aom_codec_encode` (`none` = `AOM_CODEC_OK`);
`pkts` are the packets `aom_codec_get_cx_data` yields after this
submission.  Returns `got_pkts` and the updated output stream. -/
def encode_frame (frame_index : Int) (flags : Nat) (encErr : Option String)
    (pkts : List Packet) (f : OutFile) : EncResult :=
  match encErr with
  | some _ => .died "Failed to encode frame" f
  | none => drainPackets pkts false f

/-! ## The flush loop (main.cpp line 376)

`while (encode_frame(&codec, NULL, -1, 0, outfile)) continue;`

The opaque session's behaviour is the parameter `batches`: the packet
batch yielded by `aom_codec_get_cx_data` after each successive
`submit(NULL)`; once `batches` is exhausted every further call yields no
packet.  The loop stops at the first call whose drain yields no packet. -/

/-- The flush loop: returns the number of `encode_frame` calls made, the
final output stream, and whether the process died on a short write. -/
def flushLoop : List (List Packet) → OutFile → Nat × OutFile × Bool
  | [], f => (1, f, false)
  | b :: bs, f =>
    match encode_frame (-1) 0 none b f with
    | .died _ f' => (1, f', true)
    | .ok got f' =>
      if got then
        let r := flushLoop bs f'
        (r.1 + 1, r.2.1, r.2.2)
      else (1, f', false)

/-! ## The main loop and driver (`main`, main.cpp lines 254-388)

External outcomes are inputs: how many complete frames the input stream
holds (`avail`), the packet batch the session yields after each real-frame
submission (`sched`, consumed head first) and after each flush submission
(`flushBatches`), the results of `aom_img_alloc`,
`aom_codec_enc_config_default`, the two `fopen`s, `aom_codec_enc_init`
(`initRes = some detail` models a failure whose
`aom_codec_error_detail` is `detail`) and `aom_codec_destroy`, and the
output stream's byte-acceptance capacity.  Within the loop and the flush
the `aom_codec_encode` call itself is taken to succeed (its error path is
modelled by `encode_frame`'s `encErr` parameter). -/

/-- State of the encoding loop of `main` (lines 365-373). -/
structure LoopState where
  frame_count : Nat
  frames_encoded : Nat
  submittedPts : List Nat
  framesRead : Nat
  counterPairs : List (Nat × Nat)
  out : OutFile
  deriving DecidableEq, Repr

/-- The encoding loop.  `avail` frames remain readable; each iteration
reads one, records the counter pair at the body's start, computes the
keyframe flags from the pre-increment `frame_count`, submits with
presentation timestamp `frame_count++`, drains, then increments
`frames_encoded` and applies the max-frames break.  Returns the final
state and whether the process died inside the loop. -/
def encLoop (keyframe_interval : Int) (max_frames : Int) :
    Nat → List (List Packet) → LoopState → LoopState × Bool
  | 0, _, s => (s, false)
  | a + 1, sched, s =>
    let s0 : LoopState := { s with
      counterPairs := s.counterPairs ++ [(s.frame_count, s.frames_encoded)],
      framesRead := s.framesRead + 1 }
    let flags := frame_flags s0.frame_count keyframe_interval
    let pts := s0.frame_count
    let s1 : LoopState := { s0 with
      frame_count := s0.frame_count + 1,
      submittedPts := s0.submittedPts ++ [pts] }
    match encode_frame (pts : Int) flags none (sched.headD []) s1.out with
    | .died _ f' => ({ s1 with out := f' }, true)
    | .ok _ f' =>
      let s2 : LoopState := { s1 with out := f', frames_encoded := s1.frames_encoded + 1 }
      if 0 < max_frames ∧ max_frames ≤ (s2.frames_encoded : Int) then (s2, false)
      else encLoop keyframe_interval max_frames a sched.tail s2

/-- The encoder table `aom_encoders` (names only; each entry also carries
a fourcc and an interface pointer irrelevant here). -/
def aom_encoders : List String := ["av1"]

/-- `get_aom_encoder_by_name`: linear scan of the table. -/
def get_aom_encoder_by_name (name : String) : Option String :=
  aom_encoders.find? (fun n => n = name)

/-- Configuration and external-outcome inputs of one run of `main`. -/
structure ProgInput where
  codec_arg : String
  frame_width : Int
  frame_height : Int
  keyframe_interval : Int
  max_frames : Int
  allocOk : Bool
  cfgOk : Bool
  infileOk : Bool
  outfileOk : Bool
  initRes : Option String
  avail : Nat
  sched : List (List Packet)
  flushBatches : List (List Packet)
  outCap : Option Nat
  destroyOk : Bool
  deriving Repr

/-- Observable outcome of one run of `main`. -/
structure ProgResult where
  allocated : Bool
  usageShown : Bool
  diedMsg : Option String
  errorDetail : Option String
  framesRead : Nat
  submittedPts : List Nat
  frame_count : Nat
  frames_encoded : Nat
  counterPairs : List (Nat × Nat)
  loopExit : Option (Nat × Nat)
  flushCalls : Nat
  outputBytes : List Nat
  reported : Option Nat
  exitCode : Nat
  deriving DecidableEq, Repr

/-- Result fields before anything has happened. -/
def ProgResult.initial : ProgResult :=
  { allocated := false, usageShown := false, diedMsg := none, errorDetail := none,
    framesRead := 0, submittedPts := [], frame_count := 0, frames_encoded := 0,
    counterPairs := [], loopExit := none, flushCalls := 0, outputBytes := [],
    reported := none, exitCode := 0 }

/-- One run of `main`, following the source order: codec lookup, geometry
check, image allocation, keyframe-interval check, default config, file
opens, encoder init, encoding loop, flush loop, report, destroy.  `die`
prints its message and then `usage_exit` (usage text, `exit(EXIT_FAILURE)`);
`die_codec` prints its message plus the session's error detail and
`exit(EXIT_FAILURE)`s without the usage text. -/
def program (inp : ProgInput) : ProgResult :=
  if (get_aom_encoder_by_name inp.codec_arg).isNone then
    { ProgResult.initial with
      usageShown := true, diedMsg := some "Unsupported codec.", exitCode := 1 }
  else if inp.frame_width ≤ 0 ∨ inp.frame_height ≤ 0 ∨
      inp.frame_width % 2 ≠ 0 ∨ inp.frame_height % 2 ≠ 0 then
    { ProgResult.initial with
      usageShown := true, diedMsg := some "Invalid frame size", exitCode := 1 }
  else if ¬inp.allocOk then
    { ProgResult.initial with
      usageShown := true, diedMsg := some "Failed to allocate image.", exitCode := 1 }
  else if inp.keyframe_interval < 0 then
    { ProgResult.initial with
      allocated := true, usageShown := true,
      diedMsg := some "Invalid keyframe interval value.", exitCode := 1 }
  else if ¬inp.cfgOk then
    { ProgResult.initial with
      allocated := true,
      diedMsg := some "Failed to get default codec config.", exitCode := 1 }
  else if ¬inp.infileOk then
    { ProgResult.initial with
      allocated := true, usageShown := true,
      diedMsg := some "Failed to open infile for reading.", exitCode := 1 }
  else if ¬inp.outfileOk then
    { ProgResult.initial with
      allocated := true, usageShown := true,
      diedMsg := some "Failed to open outfile for reading.", exitCode := 1 }
  else
    match inp.initRes with
    | some d =>
      { ProgResult.initial with
        allocated := true,
        diedMsg := some "Failed to initialize encoder", errorDetail := some d,
        exitCode := 1 }
    | none =>
      let st0 : LoopState :=
        { frame_count := 0, frames_encoded := 0, submittedPts := [], framesRead := 0,
          counterPairs := [], out := { written := [], cap := inp.outCap } }
      let r := encLoop inp.keyframe_interval inp.max_frames inp.avail inp.sched st0
      let s := r.1
      let base : ProgResult :=
        { ProgResult.initial with
          allocated := true, framesRead := s.framesRead,
          submittedPts := s.submittedPts, frame_count := s.frame_count,
          frames_encoded := s.frames_encoded, counterPairs := s.counterPairs }
      if r.2 then
        { base with
          loopExit := none, outputBytes := s.out.written,
          diedMsg := some "Failed to write compressed frame", exitCode := 1 }
      else
        let fr := flushLoop inp.flushBatches s.out
        let base2 : ProgResult :=
          { base with
            loopExit := some (s.frame_count, s.frames_encoded),
            flushCalls := fr.1, outputBytes := fr.2.1.written }
        if fr.2.2 then
          { base2 with diedMsg := some "Failed to write compressed frame", exitCode := 1 }
        else if ¬inp.destroyOk then
          { base2 with
            reported := some s.frame_count,
            diedMsg := some "Failed to destroy codec.", exitCode := 1 }
        else
          { base2 with reported := some s.frame_count, exitCode := 0 }

/-- A concrete, fully valid run configuration (the source's hard-coded
arguments: av1, 416×240, keyframe interval 30, max 50 frames). -/
def sampleInput : ProgInput :=
  { codec_arg := "av1", frame_width := 416, frame_height := 240,
    keyframe_interval := 30, max_frames := 50, allocOk := true, cfgOk := true,
    infileOk := true, outfileOk := true, initRes := none, avail := 50, sched := [],
    flushBatches := [], outCap := none, destroyOk := true }

/-- `sampleInput` limited to 10 frames with 50 available. -/
def sampleInputMax10 : ProgInput := { sampleInput with max_frames := 10 }

/-- `sampleInput` with a negative keyframe interval. -/
def sampleInputBadInterval : ProgInput := { sampleInput with keyframe_interval := -1 }

/-- A second invalid-interval configuration (different geometry). -/
def sampleInputBadInterval2 : ProgInput :=
  { sampleInput with frame_width := 640, frame_height := 480, keyframe_interval := -7 }

/-- `sampleInput` whose encoder init fails with a detail string. -/
def sampleInputInitFail : ProgInput :=
  { sampleInput with initRes := some "ABI version mismatch" }

/-- `sampleInput` limited to 3 frames with 5 available. -/
def sampleInputMax3 : ProgInput := { sampleInput with max_frames := 3, avail := 5 }

/-! ## Helper lemmas -/

/-- The rows a complete plane read of `h` rows of `w` bytes yields. -/
def chunkRows (w : Nat) : Nat → List Nat → List (List Nat)
  | 0, _ => []
  | n + 1, s => s.take w :: chunkRows w n (s.drop w)

theorem chunkRows_length (w : Nat) :
    ∀ (h : Nat) (s : List Nat), (chunkRows w h s).length = h := by
  intro h
  induction h with
  | zero => intro s; simp [chunkRows]
  | succ n ih => intro s; simp [chunkRows, ih]

theorem chunkRows_row_length (w : Nat) :
    ∀ (h : Nat) (s : List Nat), w * h ≤ s.length →
      ∀ r ∈ chunkRows w h s, r.length = w := by
  intro h
  induction h with
  | zero => intro s _ r hr; simp [chunkRows] at hr
  | succ n ih =>
    intro s hs r hr
    have hmul : w * (n + 1) = w * n + w := Nat.mul_succ w n
    rw [chunkRows, List.mem_cons] at hr
    rcases hr with hr | hr
    · simp [hr, List.length_take]
      omega
    · exact ih (s.drop w) (by simp [List.length_drop]; omega) r hr

theorem chunkRows_join (w : Nat) :
    ∀ (h : Nat) (s : List Nat), (chunkRows w h s).flatten = s.take (w * h) := by
  intro h
  induction h with
  | zero => intro s; simp [chunkRows]
  | succ n ih =>
    intro s
    rw [chunkRows]
    simp only [List.flatten_cons, ih]
    rw [← List.take_add]
    congr 1
    ring

/-- Closed form of the row loop: it succeeds exactly when `w * h` bytes
remain, yielding the `h` chunks of `w` bytes and the rest of the stream. -/
theorem readPlaneRows_eq (w : Nat) :
    ∀ (h : Nat) (s : List Nat),
      readPlaneRows w h s =
        if w * h ≤ s.length then some (chunkRows w h s, s.drop (w * h)) else none := by
  intro h
  induction h with
  | zero => intro s; simp [readPlaneRows, chunkRows]
  | succ n ih =>
    intro s
    rw [readPlaneRows]
    simp only [fread, List.length_take]
    have hmul : w * (n + 1) = w * n + w := by ring
    by_cases hw : w ≤ s.length
    · rw [if_neg (by omega)]
      rw [ih (s.drop w)]
      simp only [List.length_drop]
      by_cases hn : w * n ≤ s.length - w
      · rw [if_pos hn, if_pos (by omega)]
        simp only [chunkRows]
        rw [List.drop_drop]
        congr 3
        omega
      · rw [if_neg hn, if_neg (by omega)]
    · rw [if_pos (by omega), if_neg (by omega)]

end AomEnc

namespace AomEnc

/-! ## The claims -/

/-- C1: the keyframe scheduling decision is a pure function of the frame
index and the configured interval: a keyframe is forced on the submission
of frame `n` iff `interval > 0` and `n % interval = 0`; frame 0 is always
forced when `interval > 0`; `interval = 0` never forces a keyframe. -/
theorem keyframe_schedule_pure (n : Nat) (i : Int) :
    (should_force_keyframe n i = true ↔ 0 < i ∧ (n : Int) % i = 0) ∧
    (0 < i → should_force_keyframe 0 i = true) ∧
    should_force_keyframe n 0 = false := by
  refine ⟨?_, ?_, ?_⟩
  · unfold should_force_keyframe frame_flags AOM_EFLAG_FORCE_KF
    split
    · rename_i hc
      simpa using hc
    · rename_i hc
      simpa using hc
  · intro hi
    unfold should_force_keyframe frame_flags AOM_EFLAG_FORCE_KF
    rw [if_pos ⟨hi, by simp⟩]
    simp
  · unfold should_force_keyframe frame_flags AOM_EFLAG_FORCE_KF
    rw [if_neg (by simp)]
    simp

/-- Witness for C1: with interval 30, frame 0 is forced. -/
theorem keyframe_schedule_pure_witness : should_force_keyframe 0 30 = true :=
  (keyframe_schedule_pure 0 30).2.1 (by decide)

/-- C2: `aom_img_read` is all-or-nothing: it returns a frame exactly when
the stream still holds a full frame's worth of bytes — any short read on
any row of any plane yields `none` (`return 0`) — and a successful read is
never partial: it returns all three planes, each with its complete count
of full-length rows, whose bytes are verbatim the next `frameBytes w h`
bytes of the stream, consuming exactly those bytes. -/
theorem aom_img_read_all_or_nothing (w h : Nat) (s : List Nat) :
    ((aom_img_read w h s).isSome = true ↔ frameBytes w h ≤ s.length) ∧
    (∀ planes rest, aom_img_read w h s = some (planes, rest) →
      planes.length = 3 ∧
      (∀ i, i < 3 → ∃ rows, planes.get? i = some rows ∧
        rows.length = planeHeight h i ∧ ∀ r ∈ rows, r.length = planeWidth w i) ∧
      planes.flatten.flatten = s.take (frameBytes w h) ∧
      rest = s.drop (frameBytes w h)) := by
  have hfb : frameBytes w h = planeWidth w 0 * planeHeight h 0 +
      planeWidth w 1 * planeHeight h 1 + planeWidth w 2 * planeHeight h 2 := rfl
  by_cases h0 : planeWidth w 0 * planeHeight h 0 ≤ s.length
  · have e0 : readPlaneRows (planeWidth w 0) (planeHeight h 0) s =
        some (chunkRows (planeWidth w 0) (planeHeight h 0) s,
          s.drop (planeWidth w 0 * planeHeight h 0)) := by
      rw [readPlaneRows_eq, if_pos h0]
    by_cases h1 : planeWidth w 1 * planeHeight h 1 ≤
        s.length - planeWidth w 0 * planeHeight h 0
    · have e1 : readPlaneRows (planeWidth w 1) (planeHeight h 1)
          (s.drop (planeWidth w 0 * planeHeight h 0)) =
          some (chunkRows (planeWidth w 1) (planeHeight h 1)
            (s.drop (planeWidth w 0 * planeHeight h 0)),
            (s.drop (planeWidth w 0 * planeHeight h 0)).drop
              (planeWidth w 1 * planeHeight h 1)) := by
        rw [readPlaneRows_eq, if_pos (by simp [List.length_drop]; omega)]
      by_cases h2 : planeWidth w 2 * planeHeight h 2 ≤
          s.length - planeWidth w 0 * planeHeight h 0 - planeWidth w 1 * planeHeight h 1
      · have e2 : readPlaneRows (planeWidth w 2) (planeHeight h 2)
            ((s.drop (planeWidth w 0 * planeHeight h 0)).drop
              (planeWidth w 1 * planeHeight h 1)) =
            some (chunkRows (planeWidth w 2) (planeHeight h 2)
              ((s.drop (planeWidth w 0 * planeHeight h 0)).drop
                (planeWidth w 1 * planeHeight h 1)),
              (((s.drop (planeWidth w 0 * planeHeight h 0)).drop
                (planeWidth w 1 * planeHeight h 1)).drop
                (planeWidth w 2 * planeHeight h 2))) := by
          rw [readPlaneRows_eq, if_pos (by simp [List.length_drop]; omega)]
        have e : aom_img_read w h s =
            some ([chunkRows (planeWidth w 0) (planeHeight h 0) s,
              chunkRows (planeWidth w 1) (planeHeight h 1)
                (s.drop (planeWidth w 0 * planeHeight h 0)),
              chunkRows (planeWidth w 2) (planeHeight h 2)
                ((s.drop (planeWidth w 0 * planeHeight h 0)).drop
                  (planeWidth w 1 * planeHeight h 1))],
              (((s.drop (planeWidth w 0 * planeHeight h 0)).drop
                (planeWidth w 1 * planeHeight h 1)).drop
                (planeWidth w 2 * planeHeight h 2))) := by
          simp only [aom_img_read, e0, e1, e2]
        constructor
        · rw [e, hfb]
          simp only [Option.isSome_some]
          exact iff_of_true trivial (by omega)
        · intro planes rest heq
          rw [e, Option.some_inj, Prod.mk.injEq] at heq
          obtain ⟨hp, hrest⟩ := heq
          subst hp
          refine ⟨rfl, ?_, ?_, ?_⟩
          · intro i hi
            interval_cases i
            · exact ⟨_, rfl, chunkRows_length _ _ _,
                chunkRows_row_length _ _ _ h0⟩
            · refine ⟨_, rfl, chunkRows_length _ _ _,
                chunkRows_row_length _ _ _ ?_⟩
              simp only [List.length_drop]
              omega
            · refine ⟨_, rfl, chunkRows_length _ _ _,
                chunkRows_row_length _ _ _ ?_⟩
              simp only [List.length_drop]
              omega
          · simp only [List.flatten_cons, List.flatten_nil, List.flatten_append,
              List.append_nil]
            rw [chunkRows_join, chunkRows_join, chunkRows_join, hfb,
              Nat.add_assoc, List.take_add, List.take_add]
          · rw [← hrest, List.drop_drop, List.drop_drop, hfb]
            congr 1
            omega
      · have e2 : readPlaneRows (planeWidth w 2) (planeHeight h 2)
            ((s.drop (planeWidth w 0 * planeHeight h 0)).drop
              (planeWidth w 1 * planeHeight h 1)) = none := by
          rw [readPlaneRows_eq, if_neg (by simp [List.length_drop]; omega)]
        have e : aom_img_read w h s = none := by
          simp only [aom_img_read, e0, e1, e2]
        rw [e, hfb]
        refine ⟨iff_of_false (by simp) (by omega), ?_⟩
        intro planes rest heq
        simp at heq
    · have e1 : readPlaneRows (planeWidth w 1) (planeHeight h 1)
          (s.drop (planeWidth w 0 * planeHeight h 0)) = none := by
        rw [readPlaneRows_eq, if_neg (by simp [List.length_drop]; omega)]
      have e : aom_img_read w h s = none := by
        simp only [aom_img_read, e0, e1]
      rw [e, hfb]
      refine ⟨iff_of_false (by simp) (by omega), ?_⟩
      intro planes rest heq
      simp at heq
  · have e0 : readPlaneRows (planeWidth w 0) (planeHeight h 0) s = none := by
      rw [readPlaneRows_eq, if_neg h0]
    have e : aom_img_read w h s = none := by
      simp only [aom_img_read, e0]
    rw [e, hfb]
    refine ⟨iff_of_false (by simp) (by omega), ?_⟩
    intro planes rest heq
    simp at heq

/-- Witness for C2 on a concrete stream: reading a 2×2 I420 frame
(6 bytes) from an 8-byte stream succeeds, returns the three complete
planes verbatim, and leaves the 2 spare bytes. -/
theorem aom_img_read_all_or_nothing_witness :
    ([[[0, 1], [2, 3]], [[4]], [[5]]] : List (List (List Nat))).length = 3 ∧
    (∀ i, i < 3 →
      ∃ rows, ([[[0, 1], [2, 3]], [[4]], [[5]]] :
          List (List (List Nat))).get? i = some rows ∧
        rows.length = planeHeight 2 i ∧ ∀ r ∈ rows, r.length = planeWidth 2 i) ∧
    ([[[0, 1], [2, 3]], [[4]], [[5]]] :
        List (List (List Nat))).flatten.flatten = (List.range 8).take (frameBytes 2 2) ∧
    ([6, 7] : List Nat) = (List.range 8).drop (frameBytes 2 2) :=
  (aom_img_read_all_or_nothing 2 2 (List.range 8)).2
    [[[0, 1], [2, 3]], [[4]], [[5]]] [6, 7] (by decide)

/-- On an unbounded output stream the drain loop never dies: it reports
whether any packet at all was drained and appends exactly the payloads of
the frame-payload packets, in order. -/
theorem drainPackets_unbounded :
    ∀ (pkts : List Packet) (b : Bool) (w : List Nat),
      drainPackets pkts b ⟨w, none⟩ =
        .ok (b || !pkts.isEmpty)
          ⟨w ++ ((pkts.filter fun p => p.kind = PacketKind.cxFrame).map
            Packet.payload).flatten, none⟩
  | [], b, w => by simp [drainPackets]
  | p :: ps, b, w => by
    by_cases hk : p.kind = PacketKind.cxFrame
    · simp only [drainPackets, fwrite, hk, if_pos, ne_eq, not_true_eq_false,
        if_true]
      rw [if_neg (by simp)]
      rw [drainPackets_unbounded ps true (w ++ p.payload)]
      simp [hk, List.filter_cons, List.append_assoc]
    · simp only [drainPackets, hk, if_false]
      rw [drainPackets_unbounded ps true w]
      simp [hk, List.filter_cons]

/-- The `got_pkts` result of a completed drain counts packets of every
kind. -/
theorem drainPackets_got :
    ∀ (pkts : List Packet) (b : Bool) (f : OutFile) (got : Bool) (f' : OutFile),
      drainPackets pkts b f = .ok got f' → got = (b || !pkts.isEmpty)
  | [], b, f, got, f' => by
    intro hres
    rw [drainPackets] at hres
    cases hres
    simp
  | p :: ps, b, f, got, f' => by
    intro hres
    rw [drainPackets] at hres
    by_cases hk : p.kind = PacketKind.cxFrame
    · rw [if_pos hk] at hres
      by_cases hshort : (fwrite p.payload f).1 ≠ p.payload.length
      · rw [if_pos hshort] at hres
        cases hres
      · rw [if_neg hshort] at hres
        have := drainPackets_got ps true (fwrite p.payload f).2 got f' hres
        simp [this]
    · rw [if_neg hk] at hres
      have := drainPackets_got ps true f got f' hres
      simp [this]

/-- A drain over packets none of which is a frame payload writes nothing
and cannot die. -/
theorem drainPackets_no_frames :
    ∀ (pkts : List Packet) (b : Bool) (f : OutFile),
      (∀ p ∈ pkts, p.kind ≠ PacketKind.cxFrame) →
      drainPackets pkts b f = .ok (b || !pkts.isEmpty) f
  | [], b, f => by
    intro _
    simp [drainPackets]
  | p :: ps, b, f => by
    intro hno
    rw [drainPackets, if_neg (hno p (List.mem_cons_self p ps))]
    rw [drainPackets_no_frames ps true f (fun q hq => hno q (List.mem_cons_of_mem p hq))]
    simp

/-- C4: for every drained packet, the sink writes the packet's payload
bytes verbatim to the output stream — in payload order and in drain
order — iff the packet's kind is the frame-payload kind; packets of every
other kind contribute no output bytes; a short write on a frame-payload
packet is fatal (`die_codec`). -/
theorem packet_sink_verbatim (fi : Int) (flags : Nat) (pkts : List Packet) (w : List Nat) :
    (encode_frame fi flags none pkts ⟨w, none⟩ =
      .ok (!pkts.isEmpty)
        ⟨w ++ ((pkts.filter fun p => p.kind = PacketKind.cxFrame).map
          Packet.payload).flatten, none⟩) ∧
    (∀ (p : Packet) (ps : List Packet) (c : Nat), p.kind = PacketKind.cxFrame →
      c < p.payload.length →
      ∃ f', encode_frame fi flags none (p :: ps) ⟨w, some c⟩ =
        .died "Failed to write compressed frame" f') := by
  constructor
  · show drainPackets pkts false ⟨w, none⟩ = _
    rw [drainPackets_unbounded]
    simp
  · intro p ps c hk hc
    show ∃ f', drainPackets (p :: ps) false ⟨w, some c⟩ = _
    rw [drainPackets, if_pos hk]
    simp only [fwrite]
    rw [if_pos (by simp; omega)]
    exact ⟨_, rfl⟩

/-- Witness for C4: a 3-byte frame payload against a stream that accepts
only one more byte dies on the short write. -/
theorem packet_sink_verbatim_witness :
    ∃ f', encode_frame 0 0 none [⟨PacketKind.cxFrame, [1, 2, 3], false⟩] ⟨[], some 1⟩ =
      .died "Failed to write compressed frame" f' :=
  (packet_sink_verbatim 0 0 [⟨PacketKind.cxFrame, [1, 2, 3], false⟩] []).2
    ⟨PacketKind.cxFrame, [1, 2, 3], false⟩ [] 1 rfl (by decide)

/-- C10: `encode_frame`'s result counts packets of every kind: a
completed call returns true iff at least one packet — frame-payload or
informational — was drained; consequently a flush cycle whose whole batch
is informational still keeps the flush loop running (and writes no
bytes). -/
theorem encode_frame_counts_all_kinds :
    (∀ (fi : Int) (flags : Nat) (pkts : List Packet) (f : OutFile) (got : Bool)
      (f' : OutFile), encode_frame fi flags none pkts f = .ok got f' →
        got = !pkts.isEmpty) ∧
    (∀ (b : List Packet) (bs : List (List Packet)) (f : OutFile),
      b ≠ [] → (∀ p ∈ b, p.kind ≠ PacketKind.cxFrame) →
      flushLoop (b :: bs) f =
        ((flushLoop bs f).1 + 1, (flushLoop bs f).2.1, (flushLoop bs f).2.2)) := by
  constructor
  · intro fi flags pkts f got f' hres
    have := drainPackets_got pkts false f got f' hres
    simpa using this
  · intro b bs f hb hno
    have he : encode_frame (-1) 0 none b f = .ok true f := by
      have h1 : encode_frame (-1) 0 none b f = .ok (false || !b.isEmpty) f :=
        drainPackets_no_frames b false f hno
      rw [h1]
      congr 1
      simp [List.isEmpty_iff, hb]
    simp [flushLoop, he]

/-- Witness for C10: a completed informational-only drain returns true. -/
theorem encode_frame_counts_all_kinds_witness :
    (true : Bool) = !([⟨PacketKind.psnr, [], false⟩] : List Packet).isEmpty :=
  encode_frame_counts_all_kinds.1 0 0 [⟨PacketKind.psnr, [], false⟩]
    ⟨[], none⟩ true ⟨[], none⟩ (by decide)

/-- C3: the flush loop terminates within the session's lookahead: if the
test-double session still buffers `L` packets in total, yielding a
nonempty batch per flush submission while any remain, the loop makes at
most `L + 1` `encode_frame` (submit-and-drain) calls. -/
theorem flush_terminates_within_lookahead :
    ∀ (batches : List (List Packet)) (f : OutFile) (L : Nat),
      (∀ b ∈ batches, b ≠ []) → (batches.map List.length).sum = L →
      (flushLoop batches f).1 ≤ L + 1
  | [], f, L => by
    intro _ _
    simp [flushLoop]
  | b :: bs, f, L => by
    intro hne hL
    have hb : b ≠ [] := hne b (List.mem_cons_self b bs)
    have hlen : 1 ≤ b.length := by
      cases b with
      | nil => exact absurd rfl hb
      | cons x xs => simp
    simp only [List.map_cons, List.sum_cons] at hL
    rcases hres : encode_frame (-1) 0 none b f with ⟨got, f'⟩ | ⟨m, f'⟩
    · have hgot : got = !b.isEmpty := drainPackets_got b false f got f' hres
      have hgt : got = true := by
        rw [hgot]
        simp [List.isEmpty_iff, hb]
      subst hgt
      have ih := flush_terminates_within_lookahead bs f'
        ((bs.map List.length).sum) (fun x hx => hne x (List.mem_cons_of_mem b hx)) rfl
      simp only [flushLoop, hres, if_true]
      omega
    · simp only [flushLoop, hres]
      omega

/-- Each loop iteration submits the pre-increment `frame_count` as the
presentation timestamp and reads one frame, so the submitted timestamps
are always `0, 1, 2, …` in lockstep with the frames read — whether or not
the run dies inside the loop. -/
theorem encLoop_pts (kfi mf : Int) :
    ∀ (a : Nat) (sched : List (List Packet)) (s : LoopState),
      s.submittedPts = List.range s.frame_count →
      s.framesRead = s.frame_count →
      (encLoop kfi mf a sched s).1.submittedPts =
          List.range (encLoop kfi mf a sched s).1.frame_count ∧
        (encLoop kfi mf a sched s).1.framesRead =
          (encLoop kfi mf a sched s).1.frame_count
  | 0, sched, s => by
    intro h1 h2
    rw [encLoop]
    exact ⟨h1, h2⟩
  | a + 1, sched, s => by
    intro h1 h2
    rw [encLoop]
    dsimp only
    split
    · constructor
      · simp [h1, List.range_succ]
      · simp [h2]
    · split
      · constructor
        · simp [h1, List.range_succ]
        · simp [h2]
      · exact encLoop_pts kfi mf a sched.tail _
          (by simp [h1, List.range_succ]) (by simp [h2])

/-- The two counters move in lockstep: both are incremented exactly once
per iteration (the write-die path leaves `frames_encoded` one behind, but
then the loop reports died). -/
theorem encLoop_counters (kfi mf : Int) :
    ∀ (a : Nat) (sched : List (List Packet)) (s : LoopState),
      s.frame_count = s.frames_encoded →
      (∀ q ∈ s.counterPairs, q.1 = q.2) →
      (∀ q ∈ (encLoop kfi mf a sched s).1.counterPairs, q.1 = q.2) ∧
        ((encLoop kfi mf a sched s).2 = false →
          (encLoop kfi mf a sched s).1.frame_count =
            (encLoop kfi mf a sched s).1.frames_encoded)
  | 0, sched, s => by
    intro h1 h2
    rw [encLoop]
    exact ⟨h2, fun _ => h1⟩
  | a + 1, sched, s => by
    intro h1 h2
    rw [encLoop]
    dsimp only
    split
    · constructor
      · intro q hq
        simp only [List.mem_append, List.mem_singleton] at hq
        rcases hq with hq | hq
        · exact h2 q hq
        · simp [hq, h1]
      · intro hcontra
        simp at hcontra
    · split
      · constructor
        · intro q hq
          simp only [List.mem_append, List.mem_singleton] at hq
          rcases hq with hq | hq
          · exact h2 q hq
          · simp [hq, h1]
        · intro _
          simp [h1]
      · refine encLoop_counters kfi mf a sched.tail _ (by simp [h1]) ?_
        intro q hq
        simp only [List.mem_append, List.mem_singleton] at hq
        rcases hq with hq | hq
        · exact h2 q hq
        · simp [hq, h1]

/-- On an unbounded output stream the loop never dies and runs for
exactly `min avail (max_frames - frames_encoded)` iterations when a
max-frames limit is set, `avail` iterations otherwise. -/
theorem encLoop_run (kfi mf : Int) :
    ∀ (a : Nat) (sched : List (List Packet)) (s : LoopState),
      s.out.cap = none →
      (0 < mf → (s.frames_encoded : Int) < mf) →
      (encLoop kfi mf a sched s).2 = false ∧
      (encLoop kfi mf a sched s).1.framesRead =
        s.framesRead + (if 0 < mf then min a (mf.toNat - s.frames_encoded) else a) ∧
      (encLoop kfi mf a sched s).1.frame_count =
        s.frame_count + (if 0 < mf then min a (mf.toNat - s.frames_encoded) else a) ∧
      (encLoop kfi mf a sched s).1.frames_encoded =
        s.frames_encoded + (if 0 < mf then min a (mf.toNat - s.frames_encoded) else a) ∧
      (encLoop kfi mf a sched s).1.out.cap = none
  | 0, sched, s => by
    intro hcap hmf
    rw [encLoop]
    refine ⟨rfl, ?_, ?_, ?_, hcap⟩ <;> simp
  | a + 1, sched, s => by
    intro hcap hmf
    have hs : s.out = ⟨s.out.written, none⟩ := by
      cases hso : s.out with
      | mk ww cc =>
        rw [hso] at hcap
        simp at hcap
        simp [hcap]
    have henc : encode_frame (s.frame_count : Int) (frame_flags s.frame_count kfi)
        none (sched.headD []) s.out =
        .ok (!(sched.headD []).isEmpty)
          ⟨s.out.written ++ (((sched.headD []).filter
            fun p => p.kind = PacketKind.cxFrame).map Packet.payload).flatten, none⟩ := by
      rw [hs]
      have := drainPackets_unbounded (sched.headD []) false s.out.written
      simpa [encode_frame] using this
    rw [encLoop]
    dsimp only
    rw [henc]
    dsimp only
    split
    · rename_i hbr
      have h0 : 0 < mf := hbr.1
      have hle : mf ≤ (s.frames_encoded : Int) + 1 := by exact_mod_cast hbr.2
      have hlt : (s.frames_encoded : Int) < mf := hmf h0
      refine ⟨rfl, ?_, ?_, ?_, rfl⟩ <;> simp only [if_pos h0] <;> omega
    · rename_i hbr
      have hmf2 : 0 < mf → ((s.frames_encoded + 1 : Nat) : Int) < mf := by
        intro h0
        rcases lt_or_le ((s.frames_encoded + 1 : Nat) : Int) mf with hlt | hge
        · exact hlt
        · exact absurd ⟨h0, hge⟩ hbr
      have ih := encLoop_run kfi mf a sched.tail
        ⟨s.frame_count + 1, s.frames_encoded + 1,
          s.submittedPts ++ [s.frame_count], s.framesRead + 1,
          s.counterPairs ++ [(s.frame_count, s.frames_encoded)],
          ⟨s.out.written ++ (((sched.headD []).filter
            fun p => p.kind = PacketKind.cxFrame).map Packet.payload).flatten, none⟩⟩
        rfl (by simpa using hmf2)
      obtain ⟨ihd, ihr, ihc, ihe, ihcap⟩ := ih
      dsimp only at ihr ihc ihe
      refine ⟨ihd, ?_, ?_, ?_, ihcap⟩
      · rw [ihr]
        by_cases h0 : 0 < mf
        · have hlt : (s.frames_encoded : Int) < mf := hmf h0
          simp only [if_pos h0]
          omega
        · simp only [if_neg h0]
          omega
      · rw [ihc]
        by_cases h0 : 0 < mf
        · have hlt : (s.frames_encoded : Int) < mf := hmf h0
          simp only [if_pos h0]
          omega
        · simp only [if_neg h0]
          omega
      · rw [ihe]
        by_cases h0 : 0 < mf
        · have hlt : (s.frames_encoded : Int) < mf := hmf h0
          simp only [if_pos h0]
          omega
        · simp only [if_neg h0]
          omega

/-- On an unbounded output stream the flush loop cannot die, and it always
makes at least the one call that observes the empty drain. -/
theorem flushLoop_unbounded :
    ∀ (bs : List (List Packet)) (f : OutFile), f.cap = none →
      (flushLoop bs f).2.2 = false ∧ 1 ≤ (flushLoop bs f).1
  | [], f => by
    intro hcap
    simp [flushLoop]
  | b :: bs, f => by
    intro hcap
    have hf : f = ⟨f.written, none⟩ := by
      cases hfo : f with
      | mk ww cc =>
        rw [hfo] at hcap
        simp at hcap
        simp [hcap]
    have henc : encode_frame (-1) 0 none b f =
        .ok (!b.isEmpty)
          ⟨f.written ++ ((b.filter fun p => p.kind = PacketKind.cxFrame).map
            Packet.payload).flatten, none⟩ := by
      rw [hf]
      have := drainPackets_unbounded b false f.written
      simpa [encode_frame] using this
    rw [flushLoop, henc]
    dsimp only
    by_cases hb : (!b.isEmpty) = true
    · rw [if_pos hb]
      have ih := flushLoop_unbounded bs
        ⟨f.written ++ ((b.filter fun p => p.kind = PacketKind.cxFrame).map
          Packet.payload).flatten, none⟩ rfl
      exact ⟨ih.1, by omega⟩
    · rw [if_neg hb]
      exact ⟨rfl, le_refl 1⟩

/-- Under a valid configuration (known codec, positive even geometry,
successful allocation, nonnegative keyframe interval, successful default
config and file opens), `main` reaches the encoder-init step and proceeds
with the encode/flush pipeline. -/
theorem program_valid_cfg (inp : ProgInput)
    (hcodec : (get_aom_encoder_by_name inp.codec_arg).isNone = false)
    (hgeom : ¬(inp.frame_width ≤ 0 ∨ inp.frame_height ≤ 0 ∨
      inp.frame_width % 2 ≠ 0 ∨ inp.frame_height % 2 ≠ 0))
    (halloc : inp.allocOk = true)
    (hkfi : ¬inp.keyframe_interval < 0)
    (hcfg : inp.cfgOk = true) (hin : inp.infileOk = true) (hout : inp.outfileOk = true) :
    program inp =
      match inp.initRes with
      | some d =>
        { ProgResult.initial with
          allocated := true,
          diedMsg := some "Failed to initialize encoder", errorDetail := some d,
          exitCode := 1 }
      | none =>
        let st0 : LoopState :=
          { frame_count := 0, frames_encoded := 0, submittedPts := [], framesRead := 0,
            counterPairs := [], out := { written := [], cap := inp.outCap } }
        let r := encLoop inp.keyframe_interval inp.max_frames inp.avail inp.sched st0
        let s := r.1
        let base : ProgResult :=
          { ProgResult.initial with
            allocated := true, framesRead := s.framesRead,
            submittedPts := s.submittedPts, frame_count := s.frame_count,
            frames_encoded := s.frames_encoded, counterPairs := s.counterPairs }
        if r.2 then
          { base with
            loopExit := none, outputBytes := s.out.written,
            diedMsg := some "Failed to write compressed frame", exitCode := 1 }
        else
          let fr := flushLoop inp.flushBatches s.out
          let base2 : ProgResult :=
            { base with
              loopExit := some (s.frame_count, s.frames_encoded),
              flushCalls := fr.1, outputBytes := fr.2.1.written }
          if fr.2.2 then
            { base2 with diedMsg := some "Failed to write compressed frame", exitCode := 1 }
          else if ¬inp.destroyOk then
            { base2 with
              reported := some s.frame_count,
              diedMsg := some "Failed to destroy codec.", exitCode := 1 }
          else
            { base2 with reported := some s.frame_count, exitCode := 0 } := by
  unfold program
  rw [if_neg (by simp [hcodec]), if_neg hgeom, if_neg (by simp [halloc]), if_neg hkfi,
    if_neg (by simp [hcfg]), if_neg (by simp [hin]), if_neg (by simp [hout])]

/-- Witness for C3: a double with two buffered packets (lookahead 2)
makes at most 3 flush calls. -/
theorem flush_terminates_within_lookahead_witness :
    (flushLoop [[⟨PacketKind.stats, [], false⟩], [⟨PacketKind.stats, [], false⟩]]
      ⟨[], none⟩).1 ≤ 2 + 1 :=
  flush_terminates_within_lookahead
    [[⟨PacketKind.stats, [], false⟩], [⟨PacketKind.stats, [], false⟩]]
    ⟨[], none⟩ 2 (by decide) (by decide)

/-- C5: when a max-frames limit is configured and at least that many
input frames are available, the driver stops reading at the limit even
though input remains, still performs the full flush sequence, reports
exactly `max_frames` frames processed, and the process completes with
exit status 0. -/
theorem max_frames_early_stop (inp : ProgInput)
    (hcodec : (get_aom_encoder_by_name inp.codec_arg).isSome = true)
    (hw : 0 < inp.frame_width) (hweven : inp.frame_width % 2 = 0)
    (hh : 0 < inp.frame_height) (hheven : inp.frame_height % 2 = 0)
    (halloc : inp.allocOk = true) (hkfi : 0 ≤ inp.keyframe_interval)
    (hcfg : inp.cfgOk = true) (hin : inp.infileOk = true) (hout : inp.outfileOk = true)
    (hinit : inp.initRes = none) (hcap : inp.outCap = none) (hdes : inp.destroyOk = true)
    (hmax : 0 < inp.max_frames) (havail : inp.max_frames.toNat ≤ inp.avail) :
    (program inp).framesRead = inp.max_frames.toNat ∧
    (program inp).reported = some inp.max_frames.toNat ∧
    1 ≤ (program inp).flushCalls ∧
    (program inp).exitCode = 0 := by
  have hcodec2 : (get_aom_encoder_by_name inp.codec_arg).isNone = false := by
    cases hopt : get_aom_encoder_by_name inp.codec_arg with
    | none => rw [hopt] at hcodec; simp at hcodec
    | some v => rfl
  have hgeom : ¬(inp.frame_width ≤ 0 ∨ inp.frame_height ≤ 0 ∨
      inp.frame_width % 2 ≠ 0 ∨ inp.frame_height % 2 ≠ 0) := by omega
  rw [program_valid_cfg inp hcodec2 hgeom halloc (by omega) hcfg hin hout, hinit]
  dsimp only [ProgResult.initial]
  rw [hcap]
  obtain ⟨hd, hr, hc, he, hcap2⟩ := encLoop_run inp.keyframe_interval inp.max_frames
    inp.avail inp.sched
    { frame_count := 0, frames_encoded := 0, submittedPts := [], framesRead := 0,
      counterPairs := [], out := { written := [], cap := none } }
    rfl (by intro h0; simpa using h0)
  obtain ⟨hfd, hfc⟩ := flushLoop_unbounded inp.flushBatches _ hcap2
  simp only [hd, hfd, Bool.false_eq_true, if_false, hdes, not_true_eq_false]
  refine ⟨?_, ?_, hfc, trivial⟩
  · rw [hr]
    dsimp only
    rw [if_pos hmax]
    omega
  · show some _ = some _
    rw [hc]
    dsimp only
    rw [if_pos hmax]
    congr 1
    omega

/-- Witness for C5: the spec scenario — max-frames 10, 50 frames
available — reads 10, flushes, reports 10, exits 0. -/
theorem max_frames_early_stop_witness :
    (program sampleInputMax10).framesRead = (10 : Int).toNat ∧
    (program sampleInputMax10).reported = some (10 : Int).toNat ∧
    1 ≤ (program sampleInputMax10).flushCalls ∧
    (program sampleInputMax10).exitCode = 0 :=
  max_frames_early_stop sampleInputMax10 (by decide) (by decide) (by decide) (by decide)
    (by decide) rfl (by decide) rfl rfl rfl rfl rfl rfl (by decide) (by decide)

/-- C7: if `aom_codec_enc_init` fails, the driver aborts the pipeline: it
never reads an input frame, submits nothing and makes no flush call on
the session, surfaces the session's error detail, reports nothing, writes
no output bytes, and exits non-zero. -/
theorem init_failure_aborts (inp : ProgInput) (d : String)
    (hcodec : (get_aom_encoder_by_name inp.codec_arg).isSome = true)
    (hw : 0 < inp.frame_width) (hweven : inp.frame_width % 2 = 0)
    (hh : 0 < inp.frame_height) (hheven : inp.frame_height % 2 = 0)
    (halloc : inp.allocOk = true) (hkfi : 0 ≤ inp.keyframe_interval)
    (hcfg : inp.cfgOk = true) (hin : inp.infileOk = true) (hout : inp.outfileOk = true)
    (hinit : inp.initRes = some d) :
    (program inp).framesRead = 0 ∧ (program inp).submittedPts = [] ∧
    (program inp).flushCalls = 0 ∧ (program inp).outputBytes = [] ∧
    (program inp).errorDetail = some d ∧ (program inp).reported = none ∧
    (program inp).exitCode = 1 := by
  have hcodec2 : (get_aom_encoder_by_name inp.codec_arg).isNone = false := by
    cases hopt : get_aom_encoder_by_name inp.codec_arg with
    | none => rw [hopt] at hcodec; simp at hcodec
    | some v => rfl
  have hgeom : ¬(inp.frame_width ≤ 0 ∨ inp.frame_height ≤ 0 ∨
      inp.frame_width % 2 ≠ 0 ∨ inp.frame_height % 2 ≠ 0) := by omega
  rw [program_valid_cfg inp hcodec2 hgeom halloc (by omega) hcfg hin hout, hinit]
  exact ⟨rfl, rfl, rfl, rfl, rfl, rfl, rfl⟩

/-- Witness for C7 at a concrete failing init. -/
theorem init_failure_aborts_witness :
    (program sampleInputInitFail).framesRead = 0 ∧
    (program sampleInputInitFail).submittedPts = [] ∧
    (program sampleInputInitFail).flushCalls = 0 ∧
    (program sampleInputInitFail).outputBytes = [] ∧
    (program sampleInputInitFail).errorDetail = some "ABI version mismatch" ∧
    (program sampleInputInitFail).reported = none ∧
    (program sampleInputInitFail).exitCode = 1 :=
  init_failure_aborts sampleInputInitFail "ABI version mismatch" (by decide) (by decide)
    (by decide) (by decide) (by decide) rfl (by decide) rfl rfl rfl rfl

/-- Counterexample to C6 as stated: with a known codec, valid geometry
and a negative keyframe interval, the invalid-interval configuration
error is detected only after the frame buffer has been allocated
(`aom_img_alloc` at line 327 precedes the interval check at line 332),
so not every configuration error is detected before any resource is
allocated. -/
theorem config_error_after_alloc :
    (program sampleInputBadInterval).allocated = true ∧
    (program sampleInputBadInterval).diedMsg =
      some "Invalid keyframe interval value." ∧
    (program sampleInputBadInterval).exitCode = 1 :=
  ⟨rfl, rfl, rfl⟩

/-- C6 (amended): every configuration error is reported with the usage
message and a non-zero exit; the unknown-codec and invalid-geometry
errors are detected before any resource is allocated, but the invalid
(negative) keyframe-interval error is detected only after the frame
buffer has been allocated. -/
theorem config_errors_rejected (inp : ProgInput) :
    ((get_aom_encoder_by_name inp.codec_arg).isNone = true →
      (program inp).allocated = false ∧ (program inp).usageShown = true ∧
      (program inp).exitCode = 1) ∧
    ((inp.frame_width ≤ 0 ∨ inp.frame_height ≤ 0 ∨ inp.frame_width % 2 ≠ 0 ∨
        inp.frame_height % 2 ≠ 0) →
      (program inp).allocated = false ∧ (program inp).usageShown = true ∧
      (program inp).exitCode = 1) ∧
    ((get_aom_encoder_by_name inp.codec_arg).isNone = false →
      ¬(inp.frame_width ≤ 0 ∨ inp.frame_height ≤ 0 ∨ inp.frame_width % 2 ≠ 0 ∨
        inp.frame_height % 2 ≠ 0) →
      inp.allocOk = true → inp.keyframe_interval < 0 →
      (program inp).allocated = true ∧ (program inp).usageShown = true ∧
      (program inp).exitCode = 1) := by
  refine ⟨?_, ?_, ?_⟩
  · intro hbad
    unfold program
    rw [if_pos hbad]
    exact ⟨rfl, rfl, rfl⟩
  · intro hbad
    unfold program
    by_cases hc : (get_aom_encoder_by_name inp.codec_arg).isNone = true
    · rw [if_pos hc]
      exact ⟨rfl, rfl, rfl⟩
    · rw [if_neg hc, if_pos hbad]
      exact ⟨rfl, rfl, rfl⟩
  · intro hc hgeom halloc hkfi
    unfold program
    rw [if_neg (by simp [hc]), if_neg hgeom, if_neg (by simp [halloc]), if_pos hkfi]
    exact ⟨rfl, rfl, rfl⟩

/-- Witness for C6 (amended), third case at a concrete input. -/
theorem config_errors_rejected_witness :
    (program sampleInputBadInterval2).allocated = true ∧
    (program sampleInputBadInterval2).usageShown = true ∧
    (program sampleInputBadInterval2).exitCode = 1 :=
  (config_errors_rejected sampleInputBadInterval2).2.2 (by decide) (by decide) rfl
    (by decide)

/-- C8: every real-frame submission uses the frame's 0-based index as the
presentation timestamp: across any run the list of submitted timestamps
is exactly `0, 1, …, framesRead - 1`, hence strictly increasing. -/
theorem submitted_pts_strictly_increasing (inp : ProgInput) :
    (program inp).submittedPts = List.range (program inp).framesRead ∧
    List.Pairwise (· < ·) (program inp).submittedPts := by
  have hp := encLoop_pts inp.keyframe_interval inp.max_frames inp.avail inp.sched
    { frame_count := 0, frames_encoded := 0, submittedPts := [], framesRead := 0,
      counterPairs := [], out := { written := [], cap := inp.outCap } } rfl rfl
  suffices key : (program inp).submittedPts = List.range (program inp).framesRead by
    refine ⟨key, ?_⟩
    rw [key]
    exact List.pairwise_lt_range _
  by_cases h1 : (get_aom_encoder_by_name inp.codec_arg).isNone = true
  · have e : program inp = { ProgResult.initial with
        usageShown := true, diedMsg := some "Unsupported codec.", exitCode := 1 } := by
      unfold program
      rw [if_pos h1]
    rw [e]
    rfl
  by_cases h2 : inp.frame_width ≤ 0 ∨ inp.frame_height ≤ 0 ∨
      inp.frame_width % 2 ≠ 0 ∨ inp.frame_height % 2 ≠ 0
  · have e : program inp = { ProgResult.initial with
        usageShown := true, diedMsg := some "Invalid frame size", exitCode := 1 } := by
      unfold program
      rw [if_neg h1, if_pos h2]
    rw [e]
    rfl
  by_cases h3 : inp.allocOk = true
  case neg =>
    have e : program inp = { ProgResult.initial with
        usageShown := true, diedMsg := some "Failed to allocate image.",
        exitCode := 1 } := by
      unfold program
      rw [if_neg h1, if_neg h2, if_pos h3]
    rw [e]
    rfl
  case pos =>
  by_cases h4 : inp.keyframe_interval < 0
  · have e : program inp = { ProgResult.initial with
        allocated := true, usageShown := true,
        diedMsg := some "Invalid keyframe interval value.", exitCode := 1 } := by
      unfold program
      rw [if_neg h1, if_neg h2, if_neg (not_not_intro h3), if_pos h4]
    rw [e]
    rfl
  by_cases h5 : inp.cfgOk = true
  case neg =>
    have e : program inp = { ProgResult.initial with
        allocated := true,
        diedMsg := some "Failed to get default codec config.", exitCode := 1 } := by
      unfold program
      rw [if_neg h1, if_neg h2, if_neg (not_not_intro h3), if_neg h4, if_pos h5]
    rw [e]
    rfl
  case pos =>
  by_cases h6 : inp.infileOk = true
  case neg =>
    have e : program inp = { ProgResult.initial with
        allocated := true, usageShown := true,
        diedMsg := some "Failed to open infile for reading.", exitCode := 1 } := by
      unfold program
      rw [if_neg h1, if_neg h2, if_neg (not_not_intro h3), if_neg h4,
        if_neg (not_not_intro h5), if_pos h6]
    rw [e]
    rfl
  case pos =>
  by_cases h7 : inp.outfileOk = true
  case neg =>
    have e : program inp = { ProgResult.initial with
        allocated := true, usageShown := true,
        diedMsg := some "Failed to open outfile for reading.", exitCode := 1 } := by
      unfold program
      rw [if_neg h1, if_neg h2, if_neg (not_not_intro h3), if_neg h4,
        if_neg (not_not_intro h5), if_neg (not_not_intro h6), if_pos h7]
    rw [e]
    rfl
  case pos =>
  have h1f : (get_aom_encoder_by_name inp.codec_arg).isNone = false := by
    rcases hb : (get_aom_encoder_by_name inp.codec_arg).isNone with _ | _
    · rfl
    · exact absurd hb h1
  rcases hres : inp.initRes with _ | d
  · rw [program_valid_cfg inp h1f h2 h3 h4 h5 h6 h7, hres]
    dsimp only [ProgResult.initial]
    by_cases hdied : (encLoop inp.keyframe_interval inp.max_frames inp.avail inp.sched
        { frame_count := 0, frames_encoded := 0, submittedPts := [], framesRead := 0,
          counterPairs := [], out := { written := [], cap := inp.outCap } }).2 = true
    · rw [if_pos hdied]
      simp only [hp.1, hp.2]
    · rw [if_neg hdied]
      by_cases hfdied : (flushLoop inp.flushBatches
          (encLoop inp.keyframe_interval inp.max_frames inp.avail inp.sched
            { frame_count := 0, frames_encoded := 0, submittedPts := [], framesRead := 0,
              counterPairs := [],
              out := { written := [], cap := inp.outCap } }).1.out).2.2 = true
      · rw [if_pos hfdied]
        simp only [hp.1, hp.2]
      · rw [if_neg hfdied]
        by_cases hdest : inp.destroyOk = true
        · rw [if_neg (not_not_intro hdest)]
          simp only [hp.1, hp.2]
        · rw [if_pos hdest]
          simp only [hp.1, hp.2]
  · rw [program_valid_cfg inp h1f h2 h3 h4 h5 h6 h7, hres]
    rfl

/-- C9: the two frame counters stay in lockstep: the counter pair
observed at the start of every main-loop iteration is equal, the pair at
normal loop exit is equal, and on successful completion the driver's
"Processed N frames" report equals the number of real frames submitted. -/
theorem counters_lockstep (inp : ProgInput) :
    (∀ q ∈ (program inp).counterPairs, q.1 = q.2) ∧
    (∀ q, (program inp).loopExit = some q → q.1 = q.2) ∧
    ((program inp).exitCode = 0 →
      (program inp).frame_count = (program inp).frames_encoded ∧
      (program inp).reported = some (program inp).submittedPts.length) := by
  have hp := encLoop_pts inp.keyframe_interval inp.max_frames inp.avail inp.sched
    { frame_count := 0, frames_encoded := 0, submittedPts := [], framesRead := 0,
      counterPairs := [], out := { written := [], cap := inp.outCap } } rfl rfl
  have hcnt := encLoop_counters inp.keyframe_interval inp.max_frames inp.avail inp.sched
    { frame_count := 0, frames_encoded := 0, submittedPts := [], framesRead := 0,
      counterPairs := [], out := { written := [], cap := inp.outCap } } rfl
    (fun q hq => absurd hq (List.not_mem_nil q))
  by_cases h1 : (get_aom_encoder_by_name inp.codec_arg).isNone = true
  · have e : program inp = { ProgResult.initial with
        usageShown := true, diedMsg := some "Unsupported codec.", exitCode := 1 } := by
      unfold program
      rw [if_pos h1]
    rw [e]
    exact ⟨fun q hq => absurd hq (List.not_mem_nil q),
      fun q hq => Option.noConfusion hq, fun h0 => Nat.noConfusion h0⟩
  by_cases h2 : inp.frame_width ≤ 0 ∨ inp.frame_height ≤ 0 ∨
      inp.frame_width % 2 ≠ 0 ∨ inp.frame_height % 2 ≠ 0
  · have e : program inp = { ProgResult.initial with
        usageShown := true, diedMsg := some "Invalid frame size", exitCode := 1 } := by
      unfold program
      rw [if_neg h1, if_pos h2]
    rw [e]
    exact ⟨fun q hq => absurd hq (List.not_mem_nil q),
      fun q hq => Option.noConfusion hq, fun h0 => Nat.noConfusion h0⟩
  by_cases h3 : inp.allocOk = true
  case neg =>
    have e : program inp = { ProgResult.initial with
        usageShown := true, diedMsg := some "Failed to allocate image.",
        exitCode := 1 } := by
      unfold program
      rw [if_neg h1, if_neg h2, if_pos h3]
    rw [e]
    exact ⟨fun q hq => absurd hq (List.not_mem_nil q),
      fun q hq => Option.noConfusion hq, fun h0 => Nat.noConfusion h0⟩
  case pos =>
  by_cases h4 : inp.keyframe_interval < 0
  · have e : program inp = { ProgResult.initial with
        allocated := true, usageShown := true,
        diedMsg := some "Invalid keyframe interval value.", exitCode := 1 } := by
      unfold program
      rw [if_neg h1, if_neg h2, if_neg (not_not_intro h3), if_pos h4]
    rw [e]
    exact ⟨fun q hq => absurd hq (List.not_mem_nil q),
      fun q hq => Option.noConfusion hq, fun h0 => Nat.noConfusion h0⟩
  by_cases h5 : inp.cfgOk = true
  case neg =>
    have e : program inp = { ProgResult.initial with
        allocated := true,
        diedMsg := some "Failed to get default codec config.", exitCode := 1 } := by
      unfold program
      rw [if_neg h1, if_neg h2, if_neg (not_not_intro h3), if_neg h4, if_pos h5]
    rw [e]
    exact ⟨fun q hq => absurd hq (List.not_mem_nil q),
      fun q hq => Option.noConfusion hq, fun h0 => Nat.noConfusion h0⟩
  case pos =>
  by_cases h6 : inp.infileOk = true
  case neg =>
    have e : program inp = { ProgResult.initial with
        allocated := true, usageShown := true,
        diedMsg := some "Failed to open infile for reading.", exitCode := 1 } := by
      unfold program
      rw [if_neg h1, if_neg h2, if_neg (not_not_intro h3), if_neg h4,
        if_neg (not_not_intro h5), if_pos h6]
    rw [e]
    exact ⟨fun q hq => absurd hq (List.not_mem_nil q),
      fun q hq => Option.noConfusion hq, fun h0 => Nat.noConfusion h0⟩
  case pos =>
  by_cases h7 : inp.outfileOk = true
  case neg =>
    have e : program inp = { ProgResult.initial with
        allocated := true, usageShown := true,
        diedMsg := some "Failed to open outfile for reading.", exitCode := 1 } := by
      unfold program
      rw [if_neg h1, if_neg h2, if_neg (not_not_intro h3), if_neg h4,
        if_neg (not_not_intro h5), if_neg (not_not_intro h6), if_pos h7]
    rw [e]
    exact ⟨fun q hq => absurd hq (List.not_mem_nil q),
      fun q hq => Option.noConfusion hq, fun h0 => Nat.noConfusion h0⟩
  case pos =>
  have h1f : (get_aom_encoder_by_name inp.codec_arg).isNone = false := by
    rcases hb : (get_aom_encoder_by_name inp.codec_arg).isNone with _ | _
    · rfl
    · exact absurd hb h1
  rcases hres : inp.initRes with _ | d
  · rw [program_valid_cfg inp h1f h2 h3 h4 h5 h6 h7, hres]
    dsimp only [ProgResult.initial]
    by_cases hdied : (encLoop inp.keyframe_interval inp.max_frames inp.avail inp.sched
        { frame_count := 0, frames_encoded := 0, submittedPts := [], framesRead := 0,
          counterPairs := [], out := { written := [], cap := inp.outCap } }).2 = true
    · rw [if_pos hdied]
      exact ⟨hcnt.1, fun q hq => Option.noConfusion hq,
        fun h0 => Nat.noConfusion h0⟩
    · rw [if_neg hdied]
      have hfe := hcnt.2 (Bool.not_eq_true _ ▸ hdied)
      have hlen : (encLoop inp.keyframe_interval inp.max_frames inp.avail inp.sched
          { frame_count := 0, frames_encoded := 0, submittedPts := [], framesRead := 0,
            counterPairs := [],
            out := { written := [], cap := inp.outCap } }).1.submittedPts.length =
          (encLoop inp.keyframe_interval inp.max_frames inp.avail inp.sched
          { frame_count := 0, frames_encoded := 0, submittedPts := [], framesRead := 0,
            counterPairs := [],
            out := { written := [], cap := inp.outCap } }).1.frame_count := by
        rw [hp.1, List.length_range]
      by_cases hfdied : (flushLoop inp.flushBatches
          (encLoop inp.keyframe_interval inp.max_frames inp.avail inp.sched
            { frame_count := 0, frames_encoded := 0, submittedPts := [], framesRead := 0,
              counterPairs := [],
              out := { written := [], cap := inp.outCap } }).1.out).2.2 = true
      · rw [if_pos hfdied]
        refine ⟨hcnt.1, ?_, fun h0 => Nat.noConfusion h0⟩
        intro q hq
        rw [Option.some_inj] at hq
        rw [← hq]
        exact hfe
      · rw [if_neg hfdied]
        by_cases hdest : inp.destroyOk = true
        · rw [if_neg (not_not_intro hdest)]
          refine ⟨hcnt.1, ?_, ?_⟩
          · intro q hq
            rw [Option.some_inj] at hq
            rw [← hq]
            exact hfe
          · intro _
            exact ⟨hfe, by rw [hlen]⟩
        · rw [if_pos hdest]
          refine ⟨hcnt.1, ?_, fun h0 => Nat.noConfusion h0⟩
          intro q hq
          rw [Option.some_inj] at hq
          rw [← hq]
          exact hfe
  · rw [program_valid_cfg inp h1f h2 h3 h4 h5 h6 h7, hres]
    exact ⟨fun q hq => absurd hq (List.not_mem_nil q),
      fun q hq => Option.noConfusion hq, fun h0 => Nat.noConfusion h0⟩

/-- Witness for C9 at a concrete run (lockstep pairs and matching final
report). -/
theorem counters_lockstep_witness :
    (∀ q ∈ (program sampleInputMax3).counterPairs, q.1 = q.2) ∧
    (∀ q, (program sampleInputMax3).loopExit = some q → q.1 = q.2) ∧
    ((program sampleInputMax3).exitCode = 0 →
      (program sampleInputMax3).frame_count = (program sampleInputMax3).frames_encoded ∧
      (program sampleInputMax3).reported =
        some (program sampleInputMax3).submittedPts.length) :=
  counters_lockstep sampleInputMax3

end AomEnc
